import Mathlib

/-!
Verification development for the ModelSmith repository.

This file gives a shallow embedding, in Lean 4, of the core service logic of
ModelSmith (dataset profiling, experiment comparison and ranking, labeling
import/export, and the record store's cascade deletes), and proves the
behavioural properties stated in the specification against that embedding.

Modelling conventions:
- Python dicts with string keys are modelled as association lists under
  `List.lookup` (first match wins), which is extensionally the dict when
  duplicate keys carry equal values.
- Python float metric values are modelled as rationals (`ℚ`).
- Filesystem and external-library effects (pandas parsing, `json.load`,
  `os.walk`, SQLite statement failures) are modelled as explicit environment
  inputs: the service code under verification consumes their outcomes, which
  is exactly what the Python code does.
- Raising an exception is modelled as `Except.error` carrying the message.
-/

deriving instance DecidableEq for Except

namespace ModelSmith

/-! ### String helpers (models of the Python `str` operations used) -/

/-- Model of Python `s.lower()` (ASCII case folding, which covers every
string the services compare: extensions and column-name candidates). -/
def lowerStr (s : String) : String := String.mk (s.data.map Char.toLower)

/-- Does `cs` start with `pre`? (helper for substring containment). -/
def startsWithL : List Char → List Char → Bool
  | _, [] => true
  | [], _ :: _ => false
  | c :: cs, d :: ds => c = d && startsWithL cs ds

/-- Model of Python `needle in hay` substring containment. -/
def hasSub (hay needle : List Char) : Bool :=
  match hay with
  | [] => needle.isEmpty
  | _ :: t => startsWithL hay needle || hasSub t needle

/-- Model of Python `name.lower() in col.lower()`. -/
def containsCI (col name : String) : Bool :=
  hasSub (col.data.map Char.toLower) (name.data.map Char.toLower)

/-- Model of Python `s.strip()` on a character list. -/
def stripChars (cs : List Char) : List Char :=
  ((cs.dropWhile Char.isWhitespace).reverse.dropWhile Char.isWhitespace).reverse

/-- Model of Python `s.strip()`. -/
def pyStrip (s : String) : String := String.mk (stripChars s.data)

/-- Model of Python `s.split(';')` on a character list: split at every
semicolon, producing `n+1` parts for `n` separators. -/
def splitSemiC : List Char → List (List Char)
  | [] => [[]]
  | c :: rest =>
    if c = ';' then [] :: splitSemiC rest
    else
      match splitSemiC rest with
      | [] => [[c]]
      | h :: t => (c :: h) :: t

/-- Model of Python `';'.join(_)` on character lists. -/
def joinSemiC : List (List Char) → List Char
  | [] => []
  | [x] => x
  | x :: y :: rest => x ++ ';' :: joinSemiC (y :: rest)

/-- Model of Python `';'.join(tags)`. -/
def joinTags (tags : List String) : String :=
  String.mk (joinSemiC (tags.map String.data))

/-- Model of Python `s.split(';')`. -/
def splitTags (s : String) : List String := (splitSemiC s.data).map String.mk

/-! ### Data model (from `src/database/models.py`) -/

/-- A JSON-serializable schema value: dtype strings for tabular/structured
datasets, image counts for image collections (`Dataset.schema` holds either,
depending on the dataset type). -/
inductive SVal where
  | s (v : String)
  | n (v : Nat)
deriving DecidableEq

/-- A JSON-serializable parameter value (Python `Any` restricted to the
shapes the services actually store and compare). -/
inductive PyVal where
  | s (v : String)
  | n (v : ℚ)
  | b (v : Bool)
deriving DecidableEq

/-- `Dataset` dataclass from `src/database/models.py`. -/
structure Dataset where
  id : String
  name : String
  path : String
  type : String
  created_at : String := ""
  description : String := ""
  row_count : Nat := 0
  column_count : Nat := 0
  file_size : Nat := 0
  schema : List (String × SVal) := []
  labels : List (String × String) := []
  version : Nat := 1
deriving DecidableEq

/-- `Experiment` dataclass from `src/database/models.py`. -/
structure Experiment where
  id : String
  name : String
  dataset_id : String
  model_type : String
  parameters : List (String × PyVal) := []
  metrics : List (String × ℚ) := []
  timestamp : String := ""
  description : String := ""
  feature_columns : List String := []
  target_column : String := ""
  status : String := "created"
  duration_seconds : ℚ := 0
  notes : String := ""
  tags : List String := []
deriving DecidableEq

/-- `Model` dataclass from `src/database/models.py`. -/
structure ModelRec where
  id : String
  name : String
  experiment_id : String
  file_path : String
  created_at : String := ""
  framework : String := ""
  version : String := "1.0.0"
  metrics : List (String × ℚ) := []
  notes : String := ""
  tags : List String := []
  file_size : Nat := 0
deriving DecidableEq

/-- `Annotation` dataclass from `src/database/models.py` (named `Annot`
here). -/
structure Annot where
  id : String
  dataset_id : String
  item_index : Int
  item_path : String := ""
  label : String := ""
  tags : List String := []
  metadata : List (String × String) := []
  created_at : String := ""
  updated_at : String := ""
deriving DecidableEq

/-! ### Environment for dataset analysis

`DatasetService._analyze_csv` / `_analyze_json` / `_analyze_images` call
pandas, `json`, and `os.walk`; the outcomes of those library calls are the
environment. `Except.error msg` models the library call raising an
exception with text `msg`. -/

/-- Result of a successful pandas load: row count, column count, and the
dtype schema, as the analysis code reads them off the frame. -/
structure FrameSummary where
  rows : Nat
  cols : Nat
  schema : List (String × SVal)

/-- Environment of library-call outcomes consumed by `_analyze_dataset`. -/
structure AnalyzeEnv where
  /-- Outcome of `pd.read_csv(dataset.path)` in `_analyze_csv`. -/
  csvLoad : Except String FrameSummary
  /-- Outcome of the `json.load` / JSON-lines block in `_analyze_json`:
  the parsed record list, or the exception text. One record is abstract
  here; only its count and the normalized summary are consumed. -/
  jsonLoad : Except String (List (List (String × PyVal)))
  /-- Outcome of `pd.json_normalize(data)` as read by `_analyze_json`. -/
  jsonNormalize : List (List (String × PyVal)) → FrameSummary
  /-- Outcome of the `os.walk` loop in `_analyze_images`: the class name of
  each file that passed the image-extension filter, in walk order. -/
  imagesScan : Except String (List String)

/-- `DatasetService._analyze_csv`. -/
def analyze_csv (dataset : Dataset) (env : AnalyzeEnv) : Dataset :=
  match env.csvLoad with
  | .error e => { dataset with description := "Error analyzing: " ++ e }
  | .ok fr =>
    { dataset with row_count := fr.rows, column_count := fr.cols, schema := fr.schema }

/-- `DatasetService._analyze_json`: on successful parse, the counts and
schema are updated only when the parsed list is non-empty. -/
def analyze_json (dataset : Dataset) (env : AnalyzeEnv) : Dataset :=
  match env.jsonLoad with
  | .error e => { dataset with description := "Error analyzing: " ++ e }
  | .ok data =>
    if data.length > 0 then
      let fr := env.jsonNormalize data
      { dataset with row_count := fr.rows, column_count := fr.cols, schema := fr.schema }
    else
      dataset

/-- The class-count accumulation of `_analyze_images`:
`classes[class_name] = classes.get(class_name, 0) + 1`. -/
def countClasses : List String → List (String × Nat) → List (String × Nat)
  | [], acc => acc
  | c :: rest, acc =>
    let n := ((acc.lookup c).getD 0) + 1
    let acc' :=
      if (acc.lookup c).isSome then
        acc.map (fun p => if p.1 = c then (p.1, n) else p)
      else acc ++ [(c, n)]
    countClasses rest acc'

/-- `DatasetService._analyze_images`. -/
def analyze_images (dataset : Dataset) (env : AnalyzeEnv) : Dataset :=
  match env.imagesScan with
  | .error e => { dataset with description := "Error analyzing: " ++ e }
  | .ok classesOfFiles =>
    let classes := countClasses classesOfFiles []
    { dataset with
        row_count := classesOfFiles.length
        column_count := classes.length
        schema := classes.map (fun p => (p.1, SVal.n p.2)) }

/-- `DatasetService._analyze_dataset`: dispatch on the dataset type. -/
def analyze_dataset (dataset : Dataset) (env : AnalyzeEnv) : Dataset :=
  if dataset.type = "csv" then analyze_csv dataset env
  else if dataset.type = "json" then analyze_json dataset env
  else if dataset.type = "images" then analyze_images dataset env
  else dataset

/-! ### Record-store operations on datasets (from `src/database/db_manager.py`) -/

/-- `DatabaseManager.get_dataset`: `SELECT * FROM datasets WHERE id = ?`,
first row or none. -/
def get_dataset (db : List Dataset) (dataset_id : String) : Option Dataset :=
  db.find? (fun d => d.id = dataset_id)

/-- `DatabaseManager.update_dataset`: full-record replace keyed by id. -/
def update_dataset (db : List Dataset) (dataset : Dataset) : List Dataset :=
  db.map (fun d => if d.id = dataset.id then dataset else d)

/-- `DatabaseManager.create_dataset`: `INSERT INTO datasets`. -/
def create_dataset (db : List Dataset) (dataset : Dataset) : List Dataset :=
  db ++ [dataset]

/-- `DatasetService.refresh_dataset`: look the dataset up, re-analyze,
increment the version, persist. Raising is `Except.error`. -/
def refresh_dataset (db : List Dataset) (env : AnalyzeEnv) (dataset_id : String) :
    Except String (List Dataset × Dataset) :=
  match get_dataset db dataset_id with
  | none => .error ("Dataset not found: " ++ dataset_id)
  | some dataset =>
    let analyzed := analyze_dataset dataset env
    let refreshed := { analyzed with version := analyzed.version + 1 }
    .ok (update_dataset db refreshed, refreshed)

/-! ### Dataset import (from `DatasetService.import_dataset`) -/

/-- What the filesystem reports about the import path: missing, a
directory (with its recursive total size), or a file with the extension
`os.path.splitext` yields (dot included, original case) and its size. -/
inductive PathInfo where
  | missing
  | directory (size : Nat)
  | file (ext : String) (size : Nat)

/-- `DatasetService.SUPPORTED_CSV_EXTENSIONS`. -/
def SUPPORTED_CSV_EXTENSIONS : List String := [".csv", ".tsv"]

/-- `DatasetService.SUPPORTED_JSON_EXTENSIONS`. -/
def SUPPORTED_JSON_EXTENSIONS : List String := [".json", ".jsonl"]

/-- Model of `os.path.basename` on an absolute POSIX path. -/
def basename (path : String) : String := ((path.splitOn "/").getLastD "")

/-- The success path of `import_dataset`: default the name to the base
name, build the record, analyze, `create_dataset`. -/
def importOk (db : List Dataset) (env : AnalyzeEnv) (path : String)
    (name : Option String) (newId ts dtype : String) (size : Nat) :
    List Dataset × Dataset :=
  let dsName := name.getD (basename path)
  let dataset : Dataset :=
    { id := newId, name := dsName, path := path, type := dtype,
      created_at := ts, file_size := size }
  let analyzed := analyze_dataset dataset env
  (create_dataset db analyzed, analyzed)

/-- `DatasetService.import_dataset`: classify the path, build the dataset
record, analyze it, persist. A raise (`Except.error`) happens before any
write, so nothing is persisted on failure. `newId` stands for the fresh
`uuid4` and `ts` for the creation timestamp. -/
def import_dataset (db : List Dataset) (env : AnalyzeEnv) (pinfo : PathInfo)
    (path : String) (name : Option String) (newId ts : String) :
    Except String (List Dataset × Dataset) :=
  match pinfo with
  | .missing => .error ("Path not found: " ++ path)
  | .directory size => .ok (importOk db env path name newId ts "images" size)
  | .file ext size =>
    let extL := lowerStr ext
    if SUPPORTED_CSV_EXTENSIONS.contains extL then
      .ok (importOk db env path name newId ts "csv" size)
    else if SUPPORTED_JSON_EXTENSIONS.contains extL then
      .ok (importOk db env path name newId ts "json" size)
    else
      .error ("Unsupported file type: " ++ extL)

/-! ### Statistics engine (from `DatasetService.get_statistics`) -/

/-- A cell of a loaded data frame (a pandas scalar). -/
inductive CellVal where
  | num (q : ℚ)
  | str (v : String)
deriving DecidableEq

/-- One column of the loaded frame as `get_statistics` reads it:
`numeric` is `pd.api.types.is_numeric_dtype`; `none` cells are NaN/null. -/
structure Col where
  name : String
  dtype : String
  numeric : Bool
  cells : List (Option CellVal)

/-- The frame returned by `load_data(dataset, limit=10000)`. -/
structure Frame where
  nrows : Nat
  cols : List Col

/-- Library-call outcomes consumed by `get_statistics`: the `load_data`
outcome, and the two pandas aggregations whose values are not rational
(`Series.std`) or whose tie order pandas leaves unspecified
(`value_counts().head(5)`). -/
structure StatsEnv where
  load : Except String Frame
  libStd : List ℚ → ℚ
  libTop : List CellVal → List (CellVal × Nat)

/-- The numeric values present in a column (pandas aggregations skip NaN). -/
def numCells (c : Col) : List ℚ :=
  c.cells.filterMap (fun o =>
    match o with
    | some (.num q) => some q
    | _ => none)

/-- Mean of the present values. -/
def meanQ (l : List ℚ) : ℚ := l.sum / l.length

/-- Minimum of the present values. -/
def minQ (l : List ℚ) : ℚ := l.foldl min (l.headD 0)

/-- Maximum of the present values. -/
def maxQ (l : List ℚ) : ℚ := l.foldl max (l.headD 0)

/-- Median of the present values (pandas: average of the two middle
order statistics on even length). -/
def medianQ (l : List ℚ) : ℚ :=
  let s := l.insertionSort (· ≤ ·)
  if l.length % 2 = 1 then s.getD (l.length / 2) 0
  else (s.getD (l.length / 2 - 1) 0 + s.getD (l.length / 2) 0) / 2

/-- Per-column statistics: the numeric branch carries
mean/std/min/max/median (each `none` when the column is entirely
missing), the non-numeric branch carries the distinct-value count and the
top values. -/
inductive ColStats where
  | numeric (dtype : String) (mean std minv maxv median : Option ℚ)
  | categorical (dtype : String) (unique_count : Nat) (top_values : List (CellVal × Nat))
deriving DecidableEq

/-- The per-column computation inside the `try` of `get_statistics`. -/
def colStatsOf (env : StatsEnv) (c : Col) : ColStats :=
  if c.numeric then
    if c.cells.all (·.isNone) then .numeric c.dtype none none none none none
    else
      let vals := numCells c
      .numeric c.dtype (some (meanQ vals)) (some (env.libStd vals))
        (some (minQ vals)) (some (maxQ vals)) (some (medianQ vals))
  else
    let present := c.cells.filterMap id
    .categorical c.dtype present.dedup.length (env.libTop present)

/-- The missing-value report: columns with at least one missing value,
with count and percentage of the loaded rows. -/
def missingOf (fr : Frame) : List (String × Nat × ℚ) :=
  fr.cols.filterMap (fun c =>
    let cnt := c.cells.countP (·.isNone)
    if cnt > 0 then some (c.name, cnt, (cnt : ℚ) / (fr.nrows : ℚ) * 100) else none)

/-- The `basic_stats` block, filled from the stored dataset fields before
any fallible work. -/
structure BasicStats where
  row_count : Nat
  column_count : Nat
  file_size : Nat
  type : String
deriving DecidableEq

/-- The report returned by `get_statistics`: `error` is the optional
`'error'` key. -/
structure StatsReport where
  basic_stats : BasicStats
  column_stats : List (String × ColStats)
  missing_values : List (String × Nat × ℚ)
  class_distribution : List (String × SVal)
  error : Option String

/-- `DatasetService.get_statistics`: the report skeleton (with
`basic_stats`) is built unconditionally; everything fallible happens in
the `try`, whose exception is captured into the `error` entry. -/
def get_statistics (dataset : Dataset) (env : StatsEnv) : StatsReport :=
  let base : StatsReport :=
    { basic_stats :=
        ⟨dataset.row_count, dataset.column_count, dataset.file_size, dataset.type⟩,
      column_stats := [], missing_values := [], class_distribution := [],
      error := none }
  match env.load with
  | .error e => { base with error := some e }
  | .ok fr =>
    if dataset.type = "csv" ∨ dataset.type = "json" then
      { base with
          column_stats := fr.cols.map (fun c => (c.name, colStatsOf env c)),
          missing_values := missingOf fr }
    else if dataset.type = "images" then
      { base with class_distribution := dataset.schema }
    else base

/-! ### Experiment comparator and ranker
(from `src/services/experiment_service.py`) -/

/-- `DatabaseManager.get_experiment`: first row with the id, or none. -/
def get_experiment (db : List Experiment) (experiment_id : String) : Option Experiment :=
  db.find? (fun e => e.id = experiment_id)

/-- The resolve loop of `compare_experiments`: look every id up, keep the
hits, silently drop the misses. -/
def resolveExperiments (db : List Experiment) : List String → List Experiment
  | [] => []
  | i :: rest =>
    match get_experiment db i with
    | some e => e :: resolveExperiments db rest
    | none => resolveExperiments db rest

/-- The per-experiment header block of a comparison report. -/
structure ExpSummary where
  id : String
  name : String
  model_type : String
  status : String
  timestamp : String
deriving DecidableEq

/-- The header block built by `compare_experiments`. -/
def summaryOf (e : Experiment) : ExpSummary :=
  ⟨e.id, e.name, e.model_type, e.status, e.timestamp⟩

/-- The comparison report of `compare_experiments` (Python dicts as
association lists under `List.lookup`). -/
structure Comparison where
  experiments : List ExpSummary
  metrics : List (String × List (String × Option ℚ))
  parameters : List (String × List (String × Option PyVal))

/-- `ExperimentService.compare_experiments`: resolve the ids, early-return
the empty report when nothing resolved, otherwise key the value maps by
the union of metric/parameter names and record each experiment's value or
`none`. -/
def compare_experiments (db : List Experiment) (experiment_ids : List String) :
    Comparison :=
  let experiments := resolveExperiments db experiment_ids
  if experiments.isEmpty then ⟨[], [], []⟩
  else
    let all_metrics := (experiments.flatMap (fun e => e.metrics.map Prod.fst)).dedup
    let all_params := (experiments.flatMap (fun e => e.parameters.map Prod.fst)).dedup
    ⟨experiments.map summaryOf,
      all_metrics.map (fun m => (m, experiments.map (fun e => (e.id, e.metrics.lookup m)))),
      all_params.map (fun p => (p, experiments.map (fun e => (e.id, e.parameters.lookup p))))⟩

/-- The running-best loop of `get_best_experiment`, with the skips
(`status != 'completed'`, metric unrecorded) and the strict comparison
against the running best, in source order. -/
def bestLoop (higher_is_better : Bool) (metric : String) :
    List Experiment → Option (Experiment × ℚ) → Option (Experiment × ℚ)
  | [], acc => acc
  | e :: rest, acc =>
    if e.status ≠ "completed" then bestLoop higher_is_better metric rest acc
    else
      match e.metrics.lookup metric with
      | none => bestLoop higher_is_better metric rest acc
      | some v =>
        match acc with
        | none => bestLoop higher_is_better metric rest (some (e, v))
        | some (be, bv) =>
          if higher_is_better ∧ bv < v then
            bestLoop higher_is_better metric rest (some (e, v))
          else if ¬higher_is_better ∧ v < bv then
            bestLoop higher_is_better metric rest (some (e, v))
          else bestLoop higher_is_better metric rest (some (be, bv))

/-- `ExperimentService.get_best_experiment` over the dataset's experiments
(the store fetch is the `dataset_id` filter). -/
def get_best_experiment (db : List Experiment) (dataset_id metric : String)
    (higher_is_better : Bool) : Option Experiment :=
  (bestLoop higher_is_better metric
    (db.filter (fun e => e.dataset_id = dataset_id)) none).map Prod.fst

/-- Does value `v` beat the running best `bv` under the chosen direction?
(strict in both directions, as in the source). -/
def beats (higher_is_better : Bool) (v bv : ℚ) : Prop :=
  if higher_is_better then bv < v else v < bv

instance (hib : Bool) (v bv : ℚ) : Decidable (beats hib v bv) := by
  unfold beats
  infer_instance

/-- The experiments of a scan list whose status is exactly `completed`
and whose metrics record the named metric, paired with that value, in
scan order. -/
def qList (metric : String) (l : List Experiment) : List (Experiment × ℚ) :=
  (l.filter (fun e => e.status = "completed")).filterMap
    (fun e => (e.metrics.lookup metric).map (fun v => (e, v)))

/-- The qualifying experiments of a ranking query, paired with their
metric value, in scan order: the dataset's experiments whose status is
exactly `completed` and whose metrics record the named metric. -/
def qualifying (db : List Experiment) (dataset_id metric : String) :
    List (Experiment × ℚ) :=
  qList metric (db.filter (fun e => e.dataset_id = dataset_id))

/-- The running-best recursion restated on the qualifying pair list (the
bridge between the source loop and its first-argmax characterization). -/
def foldBest (higher_is_better : Bool) :
    List (Experiment × ℚ) → Option (Experiment × ℚ) → Option (Experiment × ℚ)
  | [], acc => acc
  | (e, v) :: rest, acc =>
    match acc with
    | none => foldBest higher_is_better rest (some (e, v))
    | some (be, bv) =>
      if beats higher_is_better v bv then foldBest higher_is_better rest (some (e, v))
      else foldBest higher_is_better rest (some (be, bv))

/-- `ExperimentService.search_experiments`: the filter chain with the
source's `continue` structure; a falsy filter value (absent, empty string,
empty list, empty mapping) skips its filter. -/
def search_experiments (db : List Experiment) (model_type status : Option String)
    (tags : Option (List String)) (min_metric : Option (List (String × ℚ))) :
    List Experiment :=
  match db with
  | [] => []
  | e :: rest =>
    let recur := search_experiments rest model_type status tags min_metric
    if model_type.getD "" ≠ "" ∧ e.model_type ≠ model_type.getD "" then recur
    else if status.getD "" ≠ "" ∧ e.status ≠ status.getD "" then recur
    else if tags.getD [] ≠ [] ∧
        ¬ (tags.getD []).any (fun t => e.tags.contains t) then recur
    else if min_metric.getD [] ≠ [] ∧
        ¬ (min_metric.getD []).all
            (fun p => decide (p.2 ≤ (e.metrics.lookup p.1).getD 0)) then recur
    else e :: recur

/-- The search predicate exactly as the claim words it: every supplied
filter applies — equality for model_type/status, any-of for tags, and
all-thresholds-met (absent metric read as 0) for min_metric. -/
def claim_passes (model_type status : Option String) (tags : Option (List String))
    (min_metric : Option (List (String × ℚ))) (e : Experiment) : Bool :=
  (match model_type with | none => true | some s => e.model_type == s) &&
  (match status with | none => true | some s => e.status == s) &&
  (match tags with | none => true | some l => l.any (fun t => e.tags.contains t)) &&
  (match min_metric with
    | none => true
    | some l => l.all (fun p => decide (p.2 ≤ (e.metrics.lookup p.1).getD 0)))

/-- The search predicate as amended: a supplied but falsy filter value
(empty string, empty tag list, empty metric mapping) is treated as no
filter, matching the source's truthiness tests. -/
def passes_search (model_type status : Option String) (tags : Option (List String))
    (min_metric : Option (List (String × ℚ))) (e : Experiment) : Bool :=
  (model_type.getD "" == "" || e.model_type == model_type.getD "") &&
  (status.getD "" == "" || e.status == status.getD "") &&
  (tags.getD [] == [] || (tags.getD []).any (fun t => e.tags.contains t)) &&
  (min_metric.getD []).all (fun p => decide (p.2 ≤ (e.metrics.lookup p.1).getD 0))

/-! ### Target-column heuristic (from `DatasetService.detect_target_column`) -/

/-- The candidate list of `detect_target_column`, in priority order. -/
def target_names : List String := ["target", "label", "class", "y", "outcome", "result"]

/-- The inner loop: first column (in column order) containing the
candidate, case-insensitively. -/
def scanCols (n : String) : List String → Option String
  | [] => none
  | c :: rest => if containsCI c n then some c else scanCols n rest

/-- The outer loop: first candidate (in priority order) matching any
column. -/
def scanCandidates : List String → List String → Option String
  | _, [] => none
  | cols, n :: rest =>
    match scanCols n cols with
    | some c => some c
    | none => scanCandidates cols rest

/-- `DatasetService.detect_target_column`: scan the loaded columns for a
candidate hit; fall back to the synthetic image class column, then the
last column; `none` is the no-target signal (the source returns `None`,
also when loading raised). -/
def detect_target_column (dataset : Dataset) (load : Except String (List String)) :
    Option String :=
  match load with
  | .error _ => none
  | .ok cols =>
    match scanCandidates cols target_names with
    | some c => some c
    | none =>
      if dataset.type = "images" then some "class"
      else cols.getLast?

/-! ### Labeling export/import (from `src/services/labeling_service.py`) -/

/-- One record of the record-array (JSON) export. The json module's
dump/load round trip is modelled as record-level identity. -/
structure JsonAnnRec where
  item_index : Int
  item_path : String
  label : String
  tags : List String
  metadata : List (String × String)
  created_at : String
  updated_at : String
deriving DecidableEq

/-- One row of the delimited-text (CSV) export, header
`item_index,item_path,label,tags,created_at`, the tags field
semicolon-joined. The csv module's quoting/parsing round trip is modelled
as row-level identity. -/
structure CsvAnnRow where
  item_index : Int
  item_path : String
  label : String
  tags : String
  created_at : String
deriving DecidableEq

/-- `LabelingService.add_label`: builds and stores a new annotation with
the given fields (`tags or []`, `metadata or {}`); the fresh uuid and
timestamps play no role in the round-trip content and are left empty. -/
def add_label (dataset_id : String) (item_index : Int) (label : String)
    (item_path : String) (tags : Option (List String))
    (metadata : Option (List (String × String))) : Annot :=
  { id := "", dataset_id := dataset_id, item_index := item_index,
    item_path := item_path, label := label, tags := tags.getD [],
    metadata := metadata.getD [] }

/-- `export_annotations` in record-array format. -/
def export_annotations_json (anns : List Annot) : List JsonAnnRec :=
  anns.map (fun a =>
    ⟨a.item_index, a.item_path, a.label, a.tags, a.metadata, a.created_at, a.updated_at⟩)

/-- `import_annotations` in record-array format. -/
def import_annotations_json (dataset_id : String) (recs : List JsonAnnRec) :
    List Annot :=
  recs.map (fun r =>
    add_label dataset_id r.item_index r.label r.item_path (some r.tags) (some r.metadata))

/-- `export_annotations` in delimited-text format. -/
def export_annotations_csv (anns : List Annot) : List CsvAnnRow :=
  anns.map (fun a => ⟨a.item_index, a.item_path, a.label, joinTags a.tags, a.created_at⟩)

/-- The tags parsing of the CSV import:
`row.get('tags','').split(';') if row.get('tags') else []`, then
`[t.strip() for t in tags if t.strip()]`. -/
def parseCsvTags (s : String) : List String :=
  let tags := if s ≠ "" then splitTags s else []
  (tags.filter (fun t => pyStrip t ≠ "")).map pyStrip

/-- `import_annotations` in delimited-text format. -/
def import_annotations_csv (dataset_id : String) (rows : List CsvAnnRow) :
    List Annot :=
  rows.map (fun r =>
    add_label dataset_id r.item_index r.label r.item_path (some (parseCsvTags r.tags)) none)

/-- The round-tripped content of an annotation. -/
def triple (a : Annot) : Int × String × List String := (a.item_index, a.label, a.tags)

/-! ### Record store cascade deletes (from `src/database/db_manager.py`) -/

/-- The four entity tables of the store. -/
structure DBState where
  datasets : List Dataset
  experiments : List Experiment
  models : List ModelRec
  annots : List Annot
deriving DecidableEq

/-- `DELETE FROM annotations WHERE dataset_id = ?` as one SQLite
statement; `fail` injects an environment failure (the statement raising). -/
def execDeleteAnnotsByDataset (fail : Bool) (s : DBState) (dataset_id : String) :
    Except String DBState :=
  if fail then .error "database error"
  else .ok { s with annots := s.annots.filter (fun a => a.dataset_id ≠ dataset_id) }

/-- `DELETE FROM datasets WHERE id = ?`, with the statement rowcount. -/
def execDeleteDatasetById (fail : Bool) (s : DBState) (dataset_id : String) :
    Except String (DBState × Nat) :=
  if fail then .error "database error"
  else .ok ({ s with datasets := s.datasets.filter (fun d => d.id ≠ dataset_id) },
    s.datasets.countP (fun d => d.id = dataset_id))

/-- `DELETE FROM models WHERE experiment_id = ?` as one SQLite statement. -/
def execDeleteModelsByExperiment (fail : Bool) (s : DBState) (experiment_id : String) :
    Except String DBState :=
  if fail then .error "database error"
  else .ok { s with models := s.models.filter (fun m => m.experiment_id ≠ experiment_id) }

/-- `DELETE FROM experiments WHERE id = ?`, with the statement rowcount. -/
def execDeleteExperimentById (fail : Bool) (s : DBState) (experiment_id : String) :
    Except String (DBState × Nat) :=
  if fail then .error "database error"
  else .ok ({ s with experiments := s.experiments.filter (fun x => x.id ≠ experiment_id) },
    s.experiments.countP (fun x => x.id = experiment_id))

/-- The commit/rollback wrapper of `DatabaseManager.get_connection`: a
successful body commits its final state; an exception rolls the whole
connection back to the entry state and propagates. -/
def withConnection {α : Type} (s : DBState) (body : Except String (DBState × α)) :
    DBState × Except String α :=
  match body with
  | .ok (s2, a) => (s2, .ok a)
  | .error e => (s, .error e)

/-- `DatabaseManager.delete_dataset`: delete the annotations, then the
dataset, inside one connection; returns `rowcount > 0` of the dataset
delete. -/
def delete_dataset (f1 f2 : Bool) (s : DBState) (dataset_id : String) :
    DBState × Except String Bool :=
  withConnection s (
    match execDeleteAnnotsByDataset f1 s dataset_id with
    | .error e => .error e
    | .ok s1 =>
      match execDeleteDatasetById f2 s1 dataset_id with
      | .error e => .error e
      | .ok (s2, rowcount) => .ok (s2, decide (0 < rowcount)))

/-- `DatabaseManager.delete_experiment`: delete the models, then the
experiment, inside one connection; returns `rowcount > 0` of the
experiment delete. -/
def delete_experiment (g1 g2 : Bool) (s : DBState) (experiment_id : String) :
    DBState × Except String Bool :=
  withConnection s (
    match execDeleteModelsByExperiment g1 s experiment_id with
    | .error e => .error e
    | .ok s1 =>
      match execDeleteExperimentById g2 s1 experiment_id with
      | .error e => .error e
      | .ok (s2, rowcount) => .ok (s2, decide (0 < rowcount)))

/-! ### Concrete instances used by the witnesses -/

/-- A statistics environment whose load fails (the source file was
deleted after import). -/
def envStatsGone : StatsEnv :=
  { load := .error "File not found", libStd := fun _ => 0, libTop := fun _ => [] }

/-- A concrete tabular dataset for instantiating the store-level theorems. -/
def dsCsvDemo : Dataset :=
  { id := "d1", name := "tab", path := "/data/t.csv", type := "csv",
    row_count := 5, column_count := 2, version := 2 }

/-- A concrete analysis environment whose CSV parse succeeds. -/
def envCsvDemo : AnalyzeEnv :=
  { csvLoad := .ok ⟨6, 2, [("a", .s "int64"), ("b", .s "object")]⟩,
    jsonLoad := .ok [], jsonNormalize := fun _ => ⟨0, 0, []⟩,
    imagesScan := .ok [] }

/-- A concrete analysis environment whose JSON parse yields the empty
array. -/
def envEmptyJson : AnalyzeEnv :=
  { csvLoad := .error "io", jsonLoad := .ok [],
    jsonNormalize := fun _ => ⟨0, 0, []⟩, imagesScan := .ok [] }

/-- A concrete structured-record dataset with prior profiling results. -/
def dsJsonDemo : Dataset :=
  { id := "d-json", name := "records", path := "/data/r.json", type := "json",
    description := "", row_count := 7, column_count := 2,
    schema := [("a", .s "int64"), ("b", .s "object")], version := 3 }

/-- Spec example: a completed experiment with accuracy 0.80. -/
def expA : Experiment :=
  { id := "e1", name := "a", dataset_id := "d1", model_type := "m",
    metrics := [("accuracy", mkRat 4 5)], status := "completed" }

/-- Spec example: a completed experiment with accuracy 0.95. -/
def expB : Experiment :=
  { id := "e2", name := "b", dataset_id := "d1", model_type := "m",
    metrics := [("accuracy", mkRat 19 20)], status := "completed" }

/-- Spec example: a still-running experiment with accuracy 0.99. -/
def expC : Experiment :=
  { id := "e3", name := "c", dataset_id := "d1", model_type := "m",
    metrics := [("accuracy", mkRat 99 100)], status := "running" }

/-- Spec example: an experiment carrying only the `f1` metric. -/
def expD : Experiment :=
  { id := "e4", name := "d", dataset_id := "d1", model_type := "m",
    metrics := [("f1", mkRat 1 2)], status := "completed", tags := ["x"] }

/-- Spec comparison example: e1 with metrics `{acc: 0.9}`. -/
def cmpE1 : Experiment :=
  { id := "e1", name := "one", dataset_id := "d1", model_type := "m",
    metrics := [("acc", mkRat 9 10)], parameters := [("lr", .n (mkRat 1 100))] }

/-- Spec comparison example: e2 with metrics `{f1: 0.5}`. -/
def cmpE2 : Experiment :=
  { id := "e2", name := "two", dataset_id := "d1", model_type := "m",
    metrics := [("f1", mkRat 1 2)], parameters := [("depth", .n 3)] }

/-- An annotation whose tag contains a semicolon (ill-formed for the
delimited-text format). -/
def annBadTag : Annot :=
  { id := "a9", dataset_id := "d1", item_index := 0, label := "cat", tags := ["x;y"] }

/-- A well-formed annotation with two clean tags. -/
def annW1 : Annot :=
  { id := "b1", dataset_id := "d1", item_index := 0, label := "cat",
    tags := ["good", "ok"] }

/-- A well-formed annotation with no tags. -/
def annW2 : Annot :=
  { id := "b2", dataset_id := "d1", item_index := 1, label := "dog", tags := [] }

/-- A concrete store: dataset d1 with three annotations (plus one
annotation of another dataset), and experiment e1 with two models. -/
def dbDemo : DBState :=
  { datasets := [dsCsvDemo],
    experiments := [expA],
    models := [{ id := "m1", name := "m1", experiment_id := "e1", file_path := "/m1" },
               { id := "m2", name := "m2", experiment_id := "e1", file_path := "/m2" }],
    annots := [{ id := "a1", dataset_id := "d1", item_index := 0 },
               { id := "a2", dataset_id := "d1", item_index := 1 },
               { id := "a3", dataset_id := "d1", item_index := 2 },
               { id := "a4", dataset_id := "d9", item_index := 0 }] }

/-! ### Theorems -/

/-- C2: `get_statistics` never propagates a failure: it is a total
function whose report always carries `basic_stats` taken from the stored
dataset fields, with the `error` entry holding the exception text exactly
when loading/computing failed, and absent otherwise. -/
theorem get_statistics_spec (dataset : Dataset) (env : StatsEnv) :
    (get_statistics dataset env).basic_stats =
      ⟨dataset.row_count, dataset.column_count, dataset.file_size, dataset.type⟩ ∧
    (∀ e, env.load = .error e → (get_statistics dataset env).error = some e) ∧
    (∀ fr, env.load = .ok fr → (get_statistics dataset env).error = none) := by
  unfold get_statistics
  refine ⟨?_, ?_, ?_⟩
  · cases env.load with
    | error e => rfl
    | ok fr => by_cases h : dataset.type = "csv" ∨ dataset.type = "json" <;>
        by_cases h2 : dataset.type = "images" <;> simp [h, h2]
  · intro e he
    rw [he]
  · intro fr hfr
    rw [hfr]
    by_cases h : dataset.type = "csv" ∨ dataset.type = "json" <;>
      by_cases h2 : dataset.type = "images" <;> simp [h, h2]

/-- Witness for C2: with the source file gone, the report still carries
the stored basic stats and an `error` entry with the exception text. -/
theorem get_statistics_spec_witness :
    (get_statistics dsCsvDemo envStatsGone).basic_stats = ⟨5, 2, 0, "csv"⟩ ∧
    (get_statistics dsCsvDemo envStatsGone).error = some "File not found" := by
  have h := get_statistics_spec dsCsvDemo envStatsGone
  exact ⟨h.1, h.2.1 "File not found" rfl⟩

/-! ### Lemmas about analysis and the dataset store -/

/-- Re-analysis never touches the identity fields or the version: every
branch of `_analyze_dataset` only assigns `row_count`, `column_count`,
`schema`, or `description`. -/
lemma analyze_dataset_preserves (d : Dataset) (env : AnalyzeEnv) :
    (analyze_dataset d env).id = d.id ∧ (analyze_dataset d env).name = d.name ∧
    (analyze_dataset d env).path = d.path ∧ (analyze_dataset d env).type = d.type ∧
    (analyze_dataset d env).version = d.version := by
  unfold analyze_dataset
  split_ifs
  · unfold analyze_csv
    cases env.csvLoad <;> exact ⟨rfl, rfl, rfl, rfl, rfl⟩
  · unfold analyze_json
    cases env.jsonLoad with
    | error e => exact ⟨rfl, rfl, rfl, rfl, rfl⟩
    | ok data => by_cases h : data.length > 0 <;> simp [h]
  · unfold analyze_images
    cases env.imagesScan <;> exact ⟨rfl, rfl, rfl, rfl, rfl⟩
  · exact ⟨rfl, rfl, rfl, rfl, rfl⟩

/-- Unfolding rule for `List.find?` on a cons cell stated with `if`. -/
lemma find?_cons_eq {α : Type} (p : α → Bool) (a : α) (l : List α) :
    List.find? p (a :: l) = if p a then some a else List.find? p l := by
  cases h : p a <;> simp [List.find?_cons, h]

/-- Looking up an id in a dataset list, head case. -/
lemma get_dataset_cons (a : Dataset) (t : List Dataset) (i : String) :
    get_dataset (a :: t) i = if a.id = i then some a else get_dataset t i := by
  unfold get_dataset
  rw [find?_cons_eq]
  by_cases h : a.id = i <;> simp [h]

/-- After a full-record replace of a stored id, looking that id up returns
the replacement. -/
lemma get_update_dataset (db : List Dataset) (d' : Dataset) (i : String)
    (hid : d'.id = i) (hex : (get_dataset db i).isSome) :
    get_dataset (update_dataset db d') i = some d' := by
  induction db with
  | nil => simp [get_dataset] at hex
  | cons a t ih =>
    simp only [update_dataset, List.map_cons]
    rw [get_dataset_cons]
    by_cases ha : a.id = i
    · have hrepl : (if a.id = d'.id then d' else a) = d' := by
        rw [hid]; simp [ha]
      rw [hrepl]
      simp [hid]
    · have hrepl : (if a.id = d'.id then d' else a) = a := by
        rw [hid]; simp [ha]
      rw [hrepl, if_neg ha]
      have hex' : (get_dataset t i).isSome := by
        rw [get_dataset_cons] at hex
        simpa [ha] using hex
      exact ih hex'

/-- C1: `refresh(dataset_id)` fails with a NotFound-style error when no
dataset has that id; otherwise it re-runs analysis and returns (and
persists) a dataset whose version is the prior version plus exactly 1, with
id, name, path and type unchanged. -/
theorem refresh_dataset_spec (db : List Dataset) (env : AnalyzeEnv) (dataset_id : String) :
    (get_dataset db dataset_id = none →
      refresh_dataset db env dataset_id = .error ("Dataset not found: " ++ dataset_id)) ∧
    (∀ d, get_dataset db dataset_id = some d →
      ∃ db' d', refresh_dataset db env dataset_id = .ok (db', d') ∧
        d'.version = d.version + 1 ∧ d'.id = d.id ∧ d'.name = d.name ∧
        d'.path = d.path ∧ d'.type = d.type ∧ db' = update_dataset db d' ∧
        get_dataset db' dataset_id = some d') := by
  constructor
  · intro h
    unfold refresh_dataset
    rw [h]
  · intro d hd
    obtain ⟨hi, hn, hp, ht, hv⟩ := analyze_dataset_preserves d env
    refine ⟨update_dataset db { analyze_dataset d env with version := (analyze_dataset d env).version + 1 },
      { analyze_dataset d env with version := (analyze_dataset d env).version + 1 },
      ?_, by simp [hv], by simp [hi], by simp [hn], by simp [hp], by simp [ht], rfl, ?_⟩
    · unfold refresh_dataset
      rw [hd]
    · refine get_update_dataset db _ dataset_id ?_ (by rw [hd]; rfl)
      have : d.id = dataset_id := by
        have := List.find?_some hd
        simpa using this
      simp [hi, this]

/-- Witness for C1: refreshing a stored dataset of version 2 yields
version 3 with identity fields intact, and refreshing a missing id fails. -/
theorem refresh_dataset_spec_witness :
    (refresh_dataset [dsCsvDemo] envCsvDemo "d1").map
      (fun p => (p.2.version, p.2.id, p.2.name, p.2.type)) =
      .ok (3, "d1", "tab", "csv") ∧
    refresh_dataset [dsCsvDemo] envCsvDemo "missing" =
      .error "Dataset not found: missing" := by
  constructor
  · obtain ⟨db', d', hok, hv, hi, hn, hp, ht, _, _⟩ :=
      (refresh_dataset_spec [dsCsvDemo] envCsvDemo "d1").2 dsCsvDemo rfl
    rw [hok]
    simp [Except.map, hv, hi, hn, ht, dsCsvDemo]
  · exact (refresh_dataset_spec [dsCsvDemo] envCsvDemo "missing").1 rfl

/-- C10 (implicit): analyzing a structured-record dataset whose file
parses to an empty JSON array leaves the dataset record entirely
unchanged — prior `row_count`, `column_count` and `schema` are kept and no
error text is written into `description`. -/
theorem analyze_json_empty_array_silent (d : Dataset) (env : AnalyzeEnv)
    (h : env.jsonLoad = .ok []) : analyze_json d env = d := by
  unfold analyze_json
  rw [h]
  simp

/-- Witness for C10 at a concrete dataset and environment. -/
theorem analyze_json_empty_array_silent_witness :
    analyze_json dsJsonDemo envEmptyJson = dsJsonDemo :=
  analyze_json_empty_array_silent dsJsonDemo envEmptyJson rfl

/-- C7: import fails fast with NotFound when the path is missing,
classifies a directory as an image collection (`"images"`), a file with a
(case-insensitively) csv/tsv extension as tabular (`"csv"`), json/jsonl as
structured-record (`"json"`), and fails fast with an unsupported-type error
on any other extension. Failures return `Except.error` before any store
write, so no dataset is persisted on failure. -/
theorem import_dataset_classify_spec (db : List Dataset) (env : AnalyzeEnv)
    (path : String) (name : Option String) (newId ts : String) :
    (import_dataset db env .missing path name newId ts =
      .error ("Path not found: " ++ path)) ∧
    (∀ size, ∃ d, import_dataset db env (.directory size) path name newId ts =
      .ok (create_dataset db d, d) ∧ d.type = "images") ∧
    (∀ ext size,
      (SUPPORTED_CSV_EXTENSIONS.contains (lowerStr ext) = true →
        ∃ d, import_dataset db env (.file ext size) path name newId ts =
          .ok (create_dataset db d, d) ∧ d.type = "csv") ∧
      (SUPPORTED_CSV_EXTENSIONS.contains (lowerStr ext) = false →
       SUPPORTED_JSON_EXTENSIONS.contains (lowerStr ext) = true →
        ∃ d, import_dataset db env (.file ext size) path name newId ts =
          .ok (create_dataset db d, d) ∧ d.type = "json") ∧
      (SUPPORTED_CSV_EXTENSIONS.contains (lowerStr ext) = false →
       SUPPORTED_JSON_EXTENSIONS.contains (lowerStr ext) = false →
        import_dataset db env (.file ext size) path name newId ts =
          .error ("Unsupported file type: " ++ lowerStr ext))) := by
  refine ⟨rfl, ?_, ?_⟩
  · intro size
    refine ⟨(importOk db env path name newId ts "images" size).2, rfl, ?_⟩
    unfold importOk
    exact (analyze_dataset_preserves _ env).2.2.2.1
  · intro ext size
    refine ⟨?_, ?_, ?_⟩
    · intro hcsv
      refine ⟨(importOk db env path name newId ts "csv" size).2, ?_, ?_⟩
      · simp only [import_dataset, hcsv]
        rfl
      · unfold importOk
        exact (analyze_dataset_preserves _ env).2.2.2.1
    · intro hncsv hjson
      refine ⟨(importOk db env path name newId ts "json" size).2, ?_, ?_⟩
      · simp only [import_dataset, hncsv, hjson]
        rfl
      · unfold importOk
        exact (analyze_dataset_preserves _ env).2.2.2.1
    · intro hncsv hnjson
      simp only [import_dataset, hncsv, hnjson]
      rfl

/-- Witness for C7: each classification branch at a concrete path, with
the resulting dataset type observed through `Except.map`. -/
theorem import_dataset_classify_spec_witness :
    (import_dataset [] envEmptyJson .missing "/a/b" none "i1" "t0" =
      .error "Path not found: /a/b") ∧
    ((import_dataset [] envEmptyJson (.directory 5) "/a/dir" none "i1" "t0").map
      (fun p => p.2.type) = .ok "images") ∧
    ((import_dataset [] envEmptyJson (.file ".CSV" 10) "/a/b.CSV" none "i1" "t0").map
      (fun p => p.2.type) = .ok "csv") ∧
    ((import_dataset [] envEmptyJson (.file ".jsonl" 10) "/a/b.jsonl" none "i1" "t0").map
      (fun p => p.2.type) = .ok "json") ∧
    (import_dataset [] envEmptyJson (.file ".txt" 10) "/a/b.txt" none "i1" "t0" =
      .error "Unsupported file type: .txt") := by
  have h := import_dataset_classify_spec [] envEmptyJson "/a/b" none "i1" "t0"
  have hdir := import_dataset_classify_spec [] envEmptyJson "/a/dir" none "i1" "t0"
  have hcsv := import_dataset_classify_spec [] envEmptyJson "/a/b.CSV" none "i1" "t0"
  have hjson := import_dataset_classify_spec [] envEmptyJson "/a/b.jsonl" none "i1" "t0"
  have htxt := import_dataset_classify_spec [] envEmptyJson "/a/b.txt" none "i1" "t0"
  refine ⟨h.1, ?_, ?_, ?_, ?_⟩
  · obtain ⟨d, hd, hure⟩ := hdir.2.1 5
    rw [hd]
    simp [Except.map, hure]
  · obtain ⟨d, hd, hure⟩ := (hcsv.2.2 ".CSV" 10).1 (by decide)
    rw [hd]
    simp [Except.map, hure]
  · obtain ⟨d, hd, hure⟩ := (hjson.2.2 ".jsonl" 10).2.1 (by decide) (by decide)
    rw [hd]
    simp [Except.map, hure]
  · exact (htxt.2.2 ".txt" 10).2.2 (by decide) (by decide)

/-! ### Ranking (C3) -/

/-- `beats` is transitive in either direction. -/
lemma beats_trans (hib : Bool) {a b c : ℚ} (h1 : beats hib a b)
    (h2 : beats hib b c) : beats hib a c := by
  cases hib <;> simp [beats] at * <;> linarith

/-- Beating a value also beats anything that value is not beaten by. -/
lemma beats_of_beats_of_not_beats (hib : Bool) {a b c : ℚ} (h1 : beats hib a b)
    (h2 : ¬ beats hib c b) : beats hib a c := by
  cases hib <;> simp [beats] at * <;> linarith

/-- The source's two-branch strict update condition is exactly `beats`. -/
lemma pyUpdate_eq {α : Type} (hib : Bool) (v bv : ℚ) (X Y : α) :
    (if hib ∧ bv < v then X else if ¬hib ∧ v < bv then X else Y) =
      if beats hib v bv then X else Y := by
  cases hib <;> simp [beats]

/-- The source loop equals the accumulator fold over the qualifying
pair list. -/
lemma bestLoop_eq_foldBest (hib : Bool) (metric : String) (l : List Experiment)
    (acc : Option (Experiment × ℚ)) :
    bestLoop hib metric l acc = foldBest hib (qList metric l) acc := by
  induction l generalizing acc with
  | nil => rfl
  | cons e rest ih =>
    by_cases hs : e.status = "completed"
    · cases hl : e.metrics.lookup metric with
      | none =>
        have hq : qList metric (e :: rest) = qList metric rest := by
          simp [qList, List.filter_cons, hs, hl]
        rw [hq, ← ih]
        simp [bestLoop, hs, hl]
      | some v =>
        have hq : qList metric (e :: rest) = (e, v) :: qList metric rest := by
          simp [qList, List.filter_cons, hs, hl]
        rw [hq]
        cases acc with
        | none =>
          rw [show foldBest hib ((e, v) :: qList metric rest) none =
              foldBest hib (qList metric rest) (some (e, v)) from rfl, ← ih]
          simp [bestLoop, hs, hl]
        | some a =>
          obtain ⟨be, bv⟩ := a
          have hfold : foldBest hib ((e, v) :: qList metric rest) (some (be, bv)) =
              if beats hib v bv then foldBest hib (qList metric rest) (some (e, v))
              else foldBest hib (qList metric rest) (some (be, bv)) := rfl
          rw [hfold, ← ih, ← ih]
          simp only [bestLoop, hs, hl]
          simp only [ne_eq, not_true_eq_false, if_false, reduceIte]
          rw [pyUpdate_eq]
    · have hq : qList metric (e :: rest) = qList metric rest := by
        simp [qList, List.filter_cons, hs]
      rw [hq, ← ih]
      simp [bestLoop, hs]

/-- First-argmax characterization of the accumulator fold: the final best
is the first element of the list (seeded with the accumulator) that every
earlier element fails to reach and no later element strictly beats. -/
lemma foldBest_char (hib : Bool) (q : List (Experiment × ℚ)) (acc : Option (Experiment × ℚ)) :
    match foldBest hib q acc, acc with
    | none, _ => q = [] ∧ acc = none
    | some r, none => ∃ l₁ l₂, q = l₁ ++ r :: l₂ ∧
        (∀ p ∈ l₁, beats hib r.2 p.2) ∧ (∀ p ∈ l₂, ¬ beats hib p.2 r.2)
    | some r, some a =>
        (r = a ∧ ∀ p ∈ q, ¬ beats hib p.2 a.2) ∨
        (∃ l₁ l₂, q = l₁ ++ r :: l₂ ∧ beats hib r.2 a.2 ∧
          (∀ p ∈ l₁, beats hib r.2 p.2) ∧ (∀ p ∈ l₂, ¬ beats hib p.2 r.2)) := by
  induction q generalizing acc with
  | nil =>
    cases acc with
    | none => exact ⟨rfl, rfl⟩
    | some a => exact Or.inl ⟨rfl, by simp⟩
  | cons hd tl ih =>
    obtain ⟨e, v⟩ := hd
    cases acc with
    | none =>
      have hstep : foldBest hib ((e, v) :: tl) none =
          foldBest hib tl (some (e, v)) := rfl
      rw [hstep]
      have h := ih (some (e, v))
      cases hf : foldBest hib tl (some (e, v)) with
      | none => rw [hf] at h; exact absurd h.2 (by simp)
      | some r =>
        rw [hf] at h
        rcases h with ⟨hr, hall⟩ | ⟨l₁, l₂, htl, hbv, h₁, h₂⟩
        · subst hr
          exact ⟨[], tl, rfl, by simp, hall⟩
        · refine ⟨(e, v) :: l₁, l₂, by rw [htl, List.cons_append], ?_, h₂⟩
          intro p hp
          rcases List.mem_cons.mp hp with hpe | hpl
          · subst hpe; exact hbv
          · exact h₁ p hpl
    | some a =>
      obtain ⟨ae, av⟩ := a
      have hstep : foldBest hib ((e, v) :: tl) (some (ae, av)) =
          if beats hib v av then foldBest hib tl (some (e, v))
          else foldBest hib tl (some (ae, av)) := rfl
      rw [hstep]
      by_cases hb : beats hib v av
      · rw [if_pos hb]
        have h := ih (some (e, v))
        cases hf : foldBest hib tl (some (e, v)) with
        | none => rw [hf] at h; exact absurd h.2 (by simp)
        | some r =>
          rw [hf] at h
          refine Or.inr ?_
          rcases h with ⟨hr, hall⟩ | ⟨l₁, l₂, htl, hbv, h₁, h₂⟩
          · subst hr
            exact ⟨[], tl, rfl, hb, by simp, hall⟩
          · refine ⟨(e, v) :: l₁, l₂, by rw [htl, List.cons_append],
              beats_trans hib hbv hb, ?_, h₂⟩
            intro p hp
            rcases List.mem_cons.mp hp with hpe | hpl
            · subst hpe; exact hbv
            · exact h₁ p hpl
      · rw [if_neg hb]
        have h := ih (some (ae, av))
        cases hf : foldBest hib tl (some (ae, av)) with
        | none => rw [hf] at h; exact absurd h.2 (by simp)
        | some r =>
          rw [hf] at h
          rcases h with ⟨hr, hall⟩ | ⟨l₁, l₂, htl, hbv, h₁, h₂⟩
          · refine Or.inl ⟨hr, ?_⟩
            intro p hp
            rcases List.mem_cons.mp hp with hpe | hpl
            · subst hpe; exact hb
            · exact hall p hpl
          · refine Or.inr ⟨(e, v) :: l₁, l₂, by rw [htl, List.cons_append], hbv, ?_, h₂⟩
            intro p hp
            rcases List.mem_cons.mp hp with hpe | hpl
            · subst hpe; exact beats_of_beats_of_not_beats hib hbv hb
            · exact h₁ p hpl

/-- C3: `best` considers only the dataset's experiments with status
exactly `completed` and the metric recorded; it returns none exactly when
no experiment qualifies, and otherwise the first qualifying experiment
whose value no earlier qualifier reaches under the strict comparison and
no later qualifier strictly beats — so the first-seen qualifier wins
ties. -/
theorem get_best_experiment_spec (db : List Experiment) (dataset_id metric : String)
    (hib : Bool) :
    (get_best_experiment db dataset_id metric hib = none →
      qualifying db dataset_id metric = []) ∧
    (∀ e, get_best_experiment db dataset_id metric hib = some e →
      ∃ v l₁ l₂, qualifying db dataset_id metric = l₁ ++ (e, v) :: l₂ ∧
        e.dataset_id = dataset_id ∧ e.status = "completed" ∧
        e.metrics.lookup metric = some v ∧
        (∀ p ∈ l₁, if hib then p.2 < v else v < p.2) ∧
        (∀ p ∈ l₂, if hib then p.2 ≤ v else v ≤ p.2)) := by
  have hbridge := bestLoop_eq_foldBest hib metric
    (db.filter (fun e => e.dataset_id = dataset_id)) none
  have hchar := foldBest_char hib
    (qList metric (db.filter (fun e => e.dataset_id = dataset_id))) none
  constructor
  · intro h
    unfold get_best_experiment at h
    rw [hbridge] at h
    cases hf : foldBest hib (qList metric (db.filter (fun e => e.dataset_id = dataset_id))) none with
    | some r => rw [hf] at h; simp at h
    | none =>
      rw [hf] at hchar
      exact hchar.1
  · intro e he
    unfold get_best_experiment at he
    rw [hbridge] at he
    cases hf : foldBest hib (qList metric (db.filter (fun e => e.dataset_id = dataset_id))) none with
    | none => rw [hf] at he; simp at he
    | some r =>
      rw [hf] at he hchar
      obtain ⟨e', v⟩ := r
      have hee : e' = e := by simpa using he
      subst hee
      obtain ⟨l₁, l₂, hq, h₁, h₂⟩ := hchar
      have hmem : (e', v) ∈ qualifying db dataset_id metric := by
        show (e', v) ∈ qList metric (db.filter (fun e => e.dataset_id = dataset_id))
        rw [hq]
        exact List.mem_append_right _ (List.mem_cons_self _ _)
      have hprops : e'.dataset_id = dataset_id ∧ e'.status = "completed" ∧
          e'.metrics.lookup metric = some v := by
        unfold qualifying qList at hmem
        rw [List.mem_filterMap] at hmem
        obtain ⟨a, ha, hfa⟩ := hmem
        rw [Option.map_eq_some'] at hfa
        obtain ⟨w, hw, heq⟩ := hfa
        have hae : a = e' := congrArg Prod.fst heq
        have hwv : w = v := congrArg Prod.snd heq
        subst hae
        rw [List.mem_filter] at ha
        obtain ⟨ha1, ha2⟩ := ha
        rw [List.mem_filter] at ha1
        refine ⟨by simpa using ha1.2, by simpa using ha2, by rw [hw, hwv]⟩
      refine ⟨v, l₁, l₂, hq, hprops.1, hprops.2.1, hprops.2.2, ?_, ?_⟩
      · intro p hp
        have hbp := h₁ p hp
        cases hib <;> simpa [beats] using hbp
      · intro p hp
        have hbp := h₂ p hp
        cases hib <;> simp [beats] at hbp <;> simpa using hbp

/-- Witness for C3 at the spec's example: among accuracies 0.80
(completed), 0.95 (completed), 0.99 (running), the 0.95 experiment wins
and decomposes the qualifying list as claimed. -/
theorem get_best_experiment_spec_witness :
    ∃ v l₁ l₂, qualifying [expA, expB, expC] "d1" "accuracy" = l₁ ++ (expB, v) :: l₂ ∧
      expB.dataset_id = "d1" ∧ expB.status = "completed" ∧
      expB.metrics.lookup "accuracy" = some v ∧
      (∀ p ∈ l₁, if true then p.2 < v else v < p.2) ∧
      (∀ p ∈ l₂, if true then p.2 ≤ v else v ≤ p.2) :=
  (get_best_experiment_spec [expA, expB, expC] "d1" "accuracy" true).2 expB (by decide)

/-! ### Comparison reports (C4) -/

/-- The resolve loop is the `filterMap` of the id lookup. -/
lemma resolve_eq_filterMap (db : List Experiment) (ids : List String) :
    resolveExperiments db ids = ids.filterMap (fun i => get_experiment db i) := by
  induction ids with
  | nil => rfl
  | cons i rest ih =>
    cases hg : get_experiment db i <;>
      simp [resolveExperiments, List.filterMap_cons, hg, ih]

/-- Looking a key up in the graph of a function over a key list. -/
lemma lookup_graph {β : Type} (f : String → β) (l : List String) (m : String) :
    (l.map (fun x => (x, f x))).lookup m = if m ∈ l then some (f m) else none := by
  induction l with
  | nil => simp
  | cons x t ih =>
    by_cases hx : m = x
    · subst hx
      simp [List.lookup]
    · have hbe : (m == x) = false := beq_eq_false_iff_ne.mpr hx
      simp [List.lookup, hbe, hx, ih]

/-- A lookup succeeds exactly when the key occurs among the stored keys. -/
lemma lookup_isSome_iff {β : Type} (l : List (String × β)) (m : String) :
    (l.lookup m).isSome ↔ m ∈ l.map Prod.fst := by
  induction l with
  | nil => simp
  | cons p t ih =>
    obtain ⟨k, b⟩ := p
    by_cases hk : m = k
    · subst hk
      simp [List.lookup]
    · have hbe : (m == k) = false := beq_eq_false_iff_ne.mpr hk
      simp [List.lookup, hbe, hk, ih]

/-- C4: `compare` silently skips unresolvable ids (its experiment list is
the summaries of the ids that resolve, so an all-missing or empty input
yields the empty report); its metric and parameter maps are keyed by ex-
actly the names some resolved experiment recorded, and each key maps every
resolved experiment's id to its recorded value or `none` when absent. -/
theorem compare_experiments_spec (db : List Experiment) (ids : List String) :
    (compare_experiments db ids).experiments =
      (ids.filterMap (fun i => get_experiment db i)).map summaryOf ∧
    (∀ m, ((compare_experiments db ids).metrics.lookup m).isSome ↔
      ∃ e ∈ ids.filterMap (fun i => get_experiment db i),
        (e.metrics.lookup m).isSome) ∧
    (∀ m row, (compare_experiments db ids).metrics.lookup m = some row →
      row = (ids.filterMap (fun i => get_experiment db i)).map
        (fun e => (e.id, e.metrics.lookup m))) ∧
    (∀ p, ((compare_experiments db ids).parameters.lookup p).isSome ↔
      ∃ e ∈ ids.filterMap (fun i => get_experiment db i),
        (e.parameters.lookup p).isSome) ∧
    (∀ p row, (compare_experiments db ids).parameters.lookup p = some row →
      row = (ids.filterMap (fun i => get_experiment db i)).map
        (fun e => (e.id, e.parameters.lookup p))) := by
  have hR := resolve_eq_filterMap db ids
  by_cases hE : (resolveExperiments db ids).isEmpty
  · have hnil : resolveExperiments db ids = [] := by
      simpa [List.isEmpty_iff] using hE
    have hfnil : ids.filterMap (fun i => get_experiment db i) = [] := by
      rw [← hR, hnil]
    have hrep : compare_experiments db ids = ⟨[], [], []⟩ := by
      unfold compare_experiments
      rw [hnil]
      rfl
    rw [hrep, hfnil]
    refine ⟨rfl, ?_, ?_, ?_, ?_⟩ <;> intro x <;> simp [List.lookup]
  · have hrep : compare_experiments db ids =
        ⟨(resolveExperiments db ids).map summaryOf,
          ((resolveExperiments db ids).flatMap (fun e => e.metrics.map Prod.fst)).dedup.map
            (fun m => (m, (resolveExperiments db ids).map (fun e => (e.id, e.metrics.lookup m)))),
          ((resolveExperiments db ids).flatMap (fun e => e.parameters.map Prod.fst)).dedup.map
            (fun p => (p, (resolveExperiments db ids).map (fun e => (e.id, e.parameters.lookup p))))⟩ := by
      unfold compare_experiments
      rw [if_neg hE]
    rw [hrep, ← hR]
    refine ⟨rfl, ?_, ?_, ?_, ?_⟩
    · intro m
      rw [lookup_graph]
      by_cases hm : m ∈ ((resolveExperiments db ids).flatMap (fun e => e.metrics.map Prod.fst)).dedup
      · rw [if_pos hm]
        simp only [Option.isSome_some, true_iff]
        rw [List.mem_dedup, List.mem_flatMap] at hm
        obtain ⟨e, he, hme⟩ := hm
        exact ⟨e, he, (lookup_isSome_iff _ _).mpr hme⟩
      · rw [if_neg hm]
        simp only [Option.isSome_none, Bool.false_eq_true, false_iff]
        rw [List.mem_dedup, List.mem_flatMap] at hm
        push_neg at hm
        rintro ⟨e, he, hsome⟩
        exact absurd ((lookup_isSome_iff _ _).mp hsome) (hm e he)
    · intro m row hrow
      rw [lookup_graph] at hrow
      by_cases hm : m ∈ ((resolveExperiments db ids).flatMap (fun e => e.metrics.map Prod.fst)).dedup
      · rw [if_pos hm] at hrow
        exact (Option.some.inj hrow).symm
      · rw [if_neg hm] at hrow
        exact absurd hrow (by simp)
    · intro p
      rw [lookup_graph]
      by_cases hp : p ∈ ((resolveExperiments db ids).flatMap (fun e => e.parameters.map Prod.fst)).dedup
      · rw [if_pos hp]
        simp only [Option.isSome_some, true_iff]
        rw [List.mem_dedup, List.mem_flatMap] at hp
        obtain ⟨e, he, hpe⟩ := hp
        exact ⟨e, he, (lookup_isSome_iff _ _).mpr hpe⟩
      · rw [if_neg hp]
        simp only [Option.isSome_none, Bool.false_eq_true, false_iff]
        rw [List.mem_dedup, List.mem_flatMap] at hp
        push_neg at hp
        rintro ⟨e, he, hsome⟩
        exact absurd ((lookup_isSome_iff _ _).mp hsome) (hp e he)
    · intro p row hrow
      rw [lookup_graph] at hrow
      by_cases hp : p ∈ ((resolveExperiments db ids).flatMap (fun e => e.parameters.map Prod.fst)).dedup
      · rw [if_pos hp] at hrow
        exact (Option.some.inj hrow).symm
      · rw [if_neg hp] at hrow
        exact absurd hrow (by simp)

/-- Witness for C4 at the spec's example: comparing `["e1","e2",
"missing-id"]` where e1 records `acc` and e2 records `f1` drops the
missing id and maps each metric over both experiments with `none` holes. -/
theorem compare_experiments_spec_witness :
    (compare_experiments [cmpE1, cmpE2] ["e1", "e2", "missing-id"]).experiments.map
      (fun s => s.id) = ["e1", "e2"] ∧
    (compare_experiments [cmpE1, cmpE2] ["e1", "e2", "missing-id"]).metrics.lookup "acc" =
      some [("e1", some (mkRat 9 10)), ("e2", none)] ∧
    (compare_experiments [cmpE1, cmpE2] ["e1", "e2", "missing-id"]).metrics.lookup "f1" =
      some [("e1", none), ("e2", some (mkRat 1 2))] := by
  have h := compare_experiments_spec [cmpE1, cmpE2] ["e1", "e2", "missing-id"]
  refine ⟨by rw [h.1]; decide, ?_, ?_⟩
  · cases hl : (compare_experiments [cmpE1, cmpE2] ["e1", "e2", "missing-id"]).metrics.lookup "acc" with
    | none =>
      have hiff := h.2.1 "acc"
      rw [hl] at hiff
      exact absurd (hiff.mpr ⟨cmpE1, by decide, by decide⟩) (by simp)
    | some row =>
      have hrow := h.2.2.1 "acc" row hl
      rw [hrow]
      decide
  · cases hl : (compare_experiments [cmpE1, cmpE2] ["e1", "e2", "missing-id"]).metrics.lookup "f1" with
    | none =>
      have hiff := h.2.1 "f1"
      rw [hl] at hiff
      exact absurd (hiff.mpr ⟨cmpE2, by decide, by decide⟩) (by simp)
    | some row =>
      have hrow := h.2.2.1 "f1" row hl
      rw [hrow]
      decide

/-! ### Search filters (C8) -/

/-- The amended search predicate holds exactly when none of the source's
four `continue` conditions fires. -/
lemma passes_search_iff (mt st : Option String) (tg : Option (List String))
    (mm : Option (List (String × ℚ))) (e : Experiment) :
    passes_search mt st tg mm e = true ↔
      ¬(mt.getD "" ≠ "" ∧ e.model_type ≠ mt.getD "") ∧
      ¬(st.getD "" ≠ "" ∧ e.status ≠ st.getD "") ∧
      ¬(tg.getD [] ≠ [] ∧ ¬ (tg.getD []).any (fun t => e.tags.contains t)) ∧
      ¬(mm.getD [] ≠ [] ∧
        ¬ (mm.getD []).all (fun p => decide (p.2 ≤ (e.metrics.lookup p.1).getD 0))) := by
  unfold passes_search
  by_cases h1 : mt.getD "" = "" <;>
    by_cases h2 : st.getD "" = "" <;>
      by_cases h3 : tg.getD [] = ([] : List String) <;>
        by_cases h4 : mm.getD [] = ([] : List (String × ℚ)) <;>
          simp [h1, h2, h3, h4] <;> tauto

/-- C8 (amended): `search` returns exactly the experiments passing the
conjunction of the supplied filters — equality for model_type/status,
any-of for tags, every-threshold-met (missing metric read as 0) for
min_metric — where a supplied but empty filter value (empty string, empty
tag list, empty mapping) is treated as no filter at all. -/
theorem search_experiments_spec (db : List Experiment) (mt st : Option String)
    (tg : Option (List String)) (mm : Option (List (String × ℚ))) :
    search_experiments db mt st tg mm = db.filter (passes_search mt st tg mm) := by
  induction db with
  | nil => rfl
  | cons e rest ih =>
    simp only [search_experiments, List.filter_cons]
    by_cases h1 : mt.getD "" ≠ "" ∧ e.model_type ≠ mt.getD ""
    · rw [if_pos h1, ih,
        if_neg (fun hp => ((passes_search_iff mt st tg mm e).mp hp).1 h1)]
    · rw [if_neg h1]
      by_cases h2 : st.getD "" ≠ "" ∧ e.status ≠ st.getD ""
      · rw [if_pos h2, ih,
          if_neg (fun hp => ((passes_search_iff mt st tg mm e).mp hp).2.1 h2)]
      · rw [if_neg h2]
        by_cases h3 : tg.getD [] ≠ [] ∧ ¬ (tg.getD []).any (fun t => e.tags.contains t)
        · rw [if_pos h3, ih,
            if_neg (fun hp => ((passes_search_iff mt st tg mm e).mp hp).2.2.1 h3)]
        · rw [if_neg h3]
          by_cases h4 : mm.getD [] ≠ [] ∧
            ¬ (mm.getD []).all (fun p => decide (p.2 ≤ (e.metrics.lookup p.1).getD 0))
          · rw [if_pos h4, ih,
              if_neg (fun hp => ((passes_search_iff mt st tg mm e).mp hp).2.2.2 h4)]
          · rw [if_neg h4, ih,
              if_pos ((passes_search_iff mt st tg mm e).mpr ⟨h1, h2, h3, h4⟩)]

/-- Counterexample to C8 as stated: with a supplied-but-empty tag list the
claim's any-of predicate excludes every experiment, but the source treats
the falsy value as no filter and keeps them all. -/
theorem search_experiments_claim_counterexample :
    search_experiments [expD] none none (some []) none ≠
      [expD].filter (claim_passes none none (some []) none) := by
  decide

/-! ### Cascade deletes (C6) -/

/-- C6: deleting a dataset removes it and every annotation referencing it
and touches nothing else, returning whether the dataset row existed;
deleting an experiment does the same with its models; and each cascade is
atomic — any statement failure rolls the store back to its entry state
and surfaces the error. -/
theorem delete_cascade_atomic_spec (s : DBState) (i j : String) (f1 f2 g1 g2 : Bool) :
    (f1 = false → f2 = false →
      delete_dataset f1 f2 s i =
        ({ datasets := s.datasets.filter (fun d => d.id ≠ i),
           experiments := s.experiments, models := s.models,
           annots := s.annots.filter (fun a => a.dataset_id ≠ i) },
          .ok (decide (0 < s.datasets.countP (fun d => d.id = i))))) ∧
    (decide (0 < s.datasets.countP (fun d => d.id = i)) = true ↔
      ∃ d ∈ s.datasets, d.id = i) ∧
    (f1 = true ∨ f2 = true →
      (delete_dataset f1 f2 s i).1 = s ∧
        ∃ e, (delete_dataset f1 f2 s i).2 = .error e) ∧
    (g1 = false → g2 = false →
      delete_experiment g1 g2 s j =
        ({ datasets := s.datasets,
           experiments := s.experiments.filter (fun x => x.id ≠ j),
           models := s.models.filter (fun m => m.experiment_id ≠ j),
           annots := s.annots },
          .ok (decide (0 < s.experiments.countP (fun x => x.id = j))))) ∧
    (decide (0 < s.experiments.countP (fun x => x.id = j)) = true ↔
      ∃ x ∈ s.experiments, x.id = j) ∧
    (g1 = true ∨ g2 = true →
      (delete_experiment g1 g2 s j).1 = s ∧
        ∃ e, (delete_experiment g1 g2 s j).2 = .error e) := by
  refine ⟨?_, ?_, ?_, ?_, ?_, ?_⟩
  · intro hf1 hf2
    subst hf1; subst hf2
    rfl
  · simp [List.countP_pos_iff]
  · intro h
    rcases h with h | h <;> subst h
    · exact ⟨rfl, "database error", rfl⟩
    · cases f1 <;> exact ⟨rfl, "database error", rfl⟩
  · intro hg1 hg2
    subst hg1; subst hg2
    rfl
  · simp [List.countP_pos_iff]
  · intro h
    rcases h with h | h <;> subst h
    · exact ⟨rfl, "database error", rfl⟩
    · cases g1 <;> exact ⟨rfl, "database error", rfl⟩

/-- Witness for C6 at the demo store: deleting d1 removes all three of
its annotations and keeps the unrelated one, models survive, the delete
reports the row existed; a failing statement leaves the store untouched;
deleting e1 removes both models. -/
theorem delete_cascade_atomic_spec_witness :
    delete_dataset false false dbDemo "d1" =
      ({ datasets := [], experiments := dbDemo.experiments, models := dbDemo.models,
         annots := [{ id := "a4", dataset_id := "d9", item_index := 0 }] },
        .ok true) ∧
    (delete_dataset true false dbDemo "d1").1 = dbDemo ∧
    (delete_dataset false true dbDemo "d1").1 = dbDemo ∧
    delete_experiment false false dbDemo "e1" =
      ({ datasets := dbDemo.datasets, experiments := [], models := [],
         annots := dbDemo.annots }, .ok true) := by
  have h := delete_cascade_atomic_spec dbDemo "d1" "e1" false false false false
  have h1 := delete_cascade_atomic_spec dbDemo "d1" "e1" true false true false
  have h2 := delete_cascade_atomic_spec dbDemo "d1" "e1" false true false true
  refine ⟨?_, ?_, ?_, ?_⟩
  · rw [h.1 rfl rfl]
    decide
  · exact (h1.2.2.1 (Or.inl rfl)).1
  · exact (h2.2.2.1 (Or.inr rfl)).1
  · rw [h.2.2.2.1 rfl rfl]
    decide

/-! ### Target-column heuristic (C5) -/

/-- The inner scan is `List.find?` over the columns. -/
lemma scanCols_eq_find (n : String) (cols : List String) :
    scanCols n cols = cols.find? (fun c => containsCI c n) := by
  induction cols with
  | nil => rfl
  | cons c rest ih =>
    rw [scanCols, find?_cons_eq, ih]

/-- The outer scan is `List.findSome?` over the candidates. -/
lemma scanCandidates_eq_findSome (cols names : List String) :
    scanCandidates cols names =
      names.findSome? (fun n => cols.find? (fun c => containsCI c n)) := by
  induction names with
  | nil => rfl
  | cons n rest ih =>
    rw [scanCandidates, scanCols_eq_find, List.findSome?_cons, ih]
    cases cols.find? (fun c => containsCI c n) <;> rfl

/-- C5 (amended): the detection scans the fixed candidate list in
priority order for a case-insensitive substring match, the first matching
column of the first matching candidate winning; with no match an image
collection yields the synthetic `"class"`, other datasets their last
column, and a non-image dataset with zero columns yields no result
(`none` — the source returns `None`, not the literal string
`"no target found"`). -/
theorem detect_target_column_spec (dataset : Dataset) (cols : List String) :
    (detect_target_column dataset (.ok cols) =
      match target_names.findSome? (fun n => cols.find? (fun c => containsCI c n)) with
      | some c => some c
      | none =>
        if dataset.type = "images" then some "class"
        else cols.getLast?) ∧
    (cols = [] → dataset.type ≠ "images" →
      detect_target_column dataset (.ok cols) = none) := by
  constructor
  · rw [detect_target_column, scanCandidates_eq_findSome]
  · intro hc ht
    subst hc
    rw [detect_target_column]
    simp [scanCandidates, target_names, scanCols, ht]

/-- Counterexample to C5 as stated: at zero columns the source yields the
none signal, not a column literally named `"no target found"`. -/
theorem detect_target_zero_columns_counterexample :
    detect_target_column dsCsvDemo (.ok []) = none ∧
    detect_target_column dsCsvDemo (.ok []) ≠ some "no target found" := by
  constructor <;> decide

/-- Witness for C5: the spec's example (case-insensitive `target` hit on
`Target_Label`), the last-column fallback, and the zero-column case. -/
theorem detect_target_column_spec_witness :
    detect_target_column dsCsvDemo (.ok ["id", "age", "Target_Label", "income"]) =
      some "Target_Label" ∧
    detect_target_column dsJsonDemo (.ok ["a", "b"]) = some "b" ∧
    detect_target_column dsJsonDemo (.ok []) = none := by
  refine ⟨?_, ?_, ?_⟩
  · rw [(detect_target_column_spec dsCsvDemo ["id", "age", "Target_Label", "income"]).1]
    decide
  · rw [(detect_target_column_spec dsJsonDemo ["a", "b"]).1]
    decide
  · exact (detect_target_column_spec dsJsonDemo []).2 rfl (by decide)

/-! ### Annotation round trip (C9) -/

/-- Splitting a semicolon-free character list returns it whole. -/
lemma splitSemiC_no_semi (cs : List Char) (h : ';' ∉ cs) : splitSemiC cs = [cs] := by
  induction cs with
  | nil => rfl
  | cons c rest ih =>
    have hc : ¬ c = ';' := fun hh => h (hh ▸ List.mem_cons_self _ _)
    have hr : ';' ∉ rest := fun hh => h (List.mem_cons_of_mem _ hh)
    simp [splitSemiC, hc, ih hr]

/-- Splitting past a semicolon-free prefix peels it off. -/
lemma splitSemiC_append (x z : List Char) (h : ';' ∉ x) :
    splitSemiC (x ++ ';' :: z) = x :: splitSemiC z := by
  induction x with
  | nil => simp [splitSemiC]
  | cons c x2 ih =>
    have hc : ¬ c = ';' := fun hh => h (hh ▸ List.mem_cons_self _ _)
    have hr : ';' ∉ x2 := fun hh => h (List.mem_cons_of_mem _ hh)
    simp [splitSemiC, hc, ih hr]

/-- Split undoes join on nonempty lists of semicolon-free parts. -/
lemma splitSemiC_joinSemiC (xs : List (List Char)) (hne : xs ≠ [])
    (h : ∀ x ∈ xs, ';' ∉ x) : splitSemiC (joinSemiC xs) = xs := by
  induction xs with
  | nil => exact absurd rfl hne
  | cons x rest ih =>
    cases rest with
    | nil => exact splitSemiC_no_semi x (h x (by simp))
    | cons y rest2 =>
      have hstep : joinSemiC (x :: y :: rest2) = x ++ ';' :: joinSemiC (y :: rest2) := rfl
      rw [hstep, splitSemiC_append x _ (h x (by simp))]
      have := ih (by simp) (fun z hz => h z (List.mem_cons_of_mem _ hz))
      rw [this]

/-- Rebuilding strings from their character lists is the identity. -/
lemma mk_data_map (l : List String) : (l.map String.data).map String.mk = l := by
  induction l with
  | nil => rfl
  | cons a t ih =>
    cases a
    simp [ih]

/-- The strip-and-drop pass of the CSV import is the identity on clean,
nonempty tags. -/
lemma strip_id_filter_map (tags : List String)
    (h : ∀ t ∈ tags, t ≠ "" ∧ pyStrip t = t) :
    (tags.filter (fun t => pyStrip t ≠ "")).map pyStrip = tags := by
  induction tags with
  | nil => rfl
  | cons t rest ih =>
    have ht := h t (List.mem_cons_self _ _)
    have hrest := ih (fun z hz => h z (List.mem_cons_of_mem _ hz))
    simp only [List.filter_cons]
    rw [if_pos (by simp [ht.2, ht.1])]
    rw [List.map_cons, ht.2, hrest]

/-- Parsing undoes the semicolon join on clean tag lists. -/
lemma parseCsvTags_joinTags (tags : List String)
    (h : ∀ t ∈ tags, t ≠ "" ∧ pyStrip t = t ∧ ';' ∉ t.data) :
    parseCsvTags (joinTags tags) = tags := by
  cases htags : tags with
  | nil => rfl
  | cons t rest =>
    subst htags
    have hne : joinTags (t :: rest) ≠ "" := by
      have ht := (h t (List.mem_cons_self _ _)).1
      unfold joinTags
      cases rest with
      | nil =>
        intro hc
        apply ht
        cases t
        exact hc
      | cons y rest2 =>
        intro hc
        have := congrArg String.data hc
        simp [joinSemiC] at this
    have hsplit : splitTags (joinTags (t :: rest)) = t :: rest := by
      unfold splitTags joinTags
      rw [splitSemiC_joinSemiC ((t :: rest).map String.data) (by simp)]
      · exact mk_data_map _
      · intro x hx
        rw [List.mem_map] at hx
        obtain ⟨a, ha, hax⟩ := hx
        exact hax ▸ (h a ha).2.2
    unfold parseCsvTags
    rw [if_pos hne, hsplit]
    exact strip_id_filter_map _ (fun z hz => ⟨(h z hz).1, (h z hz).2.1⟩)

/-- C9 (amended): the record-array (JSON) round trip reproduces the
(item_index, label, tags) content of every annotation list exactly; the
delimited-text (CSV) round trip does so whenever every tag is nonempty,
free of leading/trailing whitespace, and semicolon-free (list equality,
which is stronger than the claimed multiset equality). -/
theorem annotation_round_trip_spec (dataset_id : String) (anns : List Annot) :
    ((import_annotations_json dataset_id (export_annotations_json anns)).map triple =
      anns.map triple) ∧
    ((∀ a ∈ anns, ∀ t ∈ a.tags, t ≠ "" ∧ pyStrip t = t ∧ ';' ∉ t.data) →
      (import_annotations_csv dataset_id (export_annotations_csv anns)).map triple =
        anns.map triple) := by
  constructor
  · unfold import_annotations_json export_annotations_json
    simp [List.map_map]
    intro a ha
    rfl
  · intro h
    unfold import_annotations_csv export_annotations_csv
    simp only [List.map_map]
    induction anns with
    | nil => rfl
    | cons a rest ih =>
      have ha := parseCsvTags_joinTags a.tags (h a (List.mem_cons_self _ _))
      have hrest := ih (fun z hz => h z (List.mem_cons_of_mem _ hz))
      simp only [List.map_cons] at *
      rw [hrest]
      simp [Function.comp, add_label, triple, ha]

/-- Counterexample to C9 as stated: a tag containing a semicolon does not
survive the delimited-text round trip (it comes back split in two), so
the (item_index, label, tags) multiset is not reproduced. -/
theorem annotation_round_trip_counterexample :
    ¬ ((import_annotations_csv "d1" (export_annotations_csv [annBadTag])).map triple).Perm
        ([annBadTag].map triple) := by
  decide

/-- Witness for C9: a two-annotation list with clean tags survives both
round trips. -/
theorem annotation_round_trip_spec_witness :
    ((import_annotations_json "d1" (export_annotations_json [annW1, annW2])).map triple =
      [annW1, annW2].map triple) ∧
    ((import_annotations_csv "d1" (export_annotations_csv [annW1, annW2])).map triple =
      [annW1, annW2].map triple) :=
  ⟨(annotation_round_trip_spec "d1" [annW1, annW2]).1,
    (annotation_round_trip_spec "d1" [annW1, annW2]).2 (by decide)⟩

end ModelSmith
